import Mathlib

/-!
# Verification of the HAL-9000 resource-monitoring system

A shallow embedding of the monitoring-and-alarm core of the repository:

* `alarm_manager.py` — the `AlarmManager` alarm store (`add_alarm`,
  `remove_alarm`, `check_alarms`, `get_alarms`);
* `monitoring.py` — the `MonitoringSystem` state (history buffers,
  `get_live_data`, `get_alarm_data`, `stop_monitoring`);
* `main.py` — the menu-driven variant: its `check_alarms` push-alert
  evaluation and the `start_monitoring` / `stop_monitoring` thread pair,
  modelled as a small-step transition system;
* `gui.py` — the `create_alarm` validation flow and the rolling warning
  window of `show_monitoring_interface`.

Python floats are modelled as rationals (`ℚ`), Python ints as `Int`,
absent values (`None`) as `Option`, and a Python function's implicit
`None` return as an explicit constructor.  Stateful methods become pure
functions from the object state (plus the values read from `psutil`,
passed as arguments) to the new state and result.
-/

/-- Python's `<` comparison on strings, as used by `sorted` on string
sort keys: lexicographic comparison of the two character sequences by
code point. -/
def strLtb : List Char → List Char → Bool
  | [], [] => false
  | [], _ :: _ => true
  | _ :: _, [] => false
  | c :: cs, d :: ds =>
      if c < d then true
      else if d < c then false
      else strLtb cs ds

/-- `a <= b` on Python strings: the negation of `b < a`. -/
def strLe (a b : String) : Bool :=
  !(strLtb b.data a.data)

/-- Python's `str.upper()` on the ASCII strings this program uses:
uppercase every character. -/
def strUpper (s : String) : String :=
  ⟨s.data.map Char.toUpper⟩

/-- An alarm record as stored in `AlarmManager.alarms`
(`alarm_manager.py`): the dict `{"type": ..., "threshold": ..., "active": ...}`
appended by `add_alarm`. -/
structure Alarm where
  type : String
  threshold : Int
  active : Bool
  deriving DecidableEq

/-- The value a Python function call returns: either the implicit `None`
or an explicit boolean.  Used to model the return value of
`AlarmManager.remove_alarm`, whose Python body has no `return` statement
and therefore returns `None` on every path. -/
inductive PyRet where
  | none
  | bool (b : Bool)
  deriving DecidableEq

namespace AlarmManager

/-- `AlarmManager.add_alarm` (`alarm_manager.py` lines 35–48): appends
`{"type": alarm_type, "threshold": threshold, "active": True}` to
`self.alarms` unconditionally — the body performs no range check on
`threshold`.  (Logging and `save_alarms` persistence are external
effects and not part of the store state.) -/
def add_alarm (alarms : List Alarm) (alarm_type : String) (threshold : Int) :
    List Alarm :=
  alarms ++ [{ type := alarm_type, threshold := threshold, active := true }]

/-- `AlarmManager.remove_alarm` (`alarm_manager.py` lines 50–59):
`if 0 <= index < len(self.alarms): self.alarms.pop(index)`.  The method
is annotated `-> None` and has no `return`, so the caller receives
Python `None` whether or not anything was removed. -/
def remove_alarm (alarms : List Alarm) (index : Int) : List Alarm × PyRet :=
  if 0 ≤ index ∧ index < alarms.length then
    (alarms.eraseIdx index.toNat, PyRet.none)
  else
    (alarms, PyRet.none)

/-- The Python condition `value and value >= threshold` from
`AlarmManager.check_alarms`, where `value` is `cpu`, `memory` or `disk`
(an `Optional[float]`): `None` is falsy, `0.0` is falsy, and otherwise
the comparison `value >= threshold` decides. -/
def truthyAndGe (value : Option ℚ) (threshold : Int) : Bool :=
  match value with
  | Option.none => false
  | Option.some x => if x = 0 then false else decide ((threshold : ℚ) ≤ x)

/-- The per-alarm branch of the `for` loop in `AlarmManager.check_alarms`
(`alarm_manager.py` lines 93–105): uppercase the alarm's type, then the
`if`/`elif` chain compares the matching metric using
`value and value >= threshold`.  The alarm's `active` field is never
read. -/
def alarmTriggers (cpu memory disk : Option ℚ) (alarm : Alarm) : Bool :=
  let alarm_type := strUpper alarm.type
  if alarm_type = "CPU" then truthyAndGe cpu alarm.threshold
  else if alarm_type = "MEMORY" then truthyAndGe memory alarm.threshold
  else if alarm_type = "DISK" then truthyAndGe disk alarm.threshold
  else false

/-- `AlarmManager.check_alarms` (`alarm_manager.py` lines 82–106): walks
`self.alarms` in order and appends each alarm whose branch condition
holds to `triggered` — i.e. a filter of the alarm list by
`alarmTriggers`. -/
def check_alarms (alarms : List Alarm) (cpu memory disk : Option ℚ) :
    List Alarm :=
  alarms.filter (alarmTriggers cpu memory disk)

/-- `AlarmManager.get_alarms` (`alarm_manager.py` lines 108–114):
`sorted(self.alarms, key=lambda x: x['type'].upper())` — a stable sort
whose key is only the uppercased type, modelled by the (stable)
insertion sort on the key order. -/
def get_alarms (alarms : List Alarm) : List Alarm :=
  alarms.insertionSort (fun a b => strLe (strUpper a.type) (strUpper b.type) = true)

end AlarmManager

namespace GUI

/-- `GUI.create_alarm` (`gui.py` lines 399–419): reads a threshold
string, attempts `int(...)` (a parse failure raises `ValueError`, caught
without touching the store, modelled by `Option.none`), and only if
`1 <= threshold <= 100` calls `AlarmManager.add_alarm`; otherwise it
displays "Invalid threshold!" and leaves the store untouched. -/
def create_alarm (alarms : List Alarm) (alarm_type : String)
    (threshold_input : Option Int) : List Alarm :=
  match threshold_input with
  | Option.none => alarms
  | Option.some threshold =>
      if 1 ≤ threshold ∧ threshold ≤ 100 then
        AlarmManager.add_alarm alarms alarm_type threshold
      else
        alarms

end GUI

namespace Monitoring

/-- `MonitoringSystem.MAX_HISTORY` (`monitoring.py`). -/
def MAX_HISTORY : Nat := 1000

/-- The history-trimming step used after every append in
`MonitoringSystem.get_cpu_usage` / `get_memory_usage` / `get_disk_usage`
/ `get_live_data`: `usage.append(v)` followed by
`if len(usage) > MAX_HISTORY: usage = usage[-MAX_HISTORY:]`
(a Python slice `l[-n:]`, for `len(l) > n`, keeps the last `n`
elements). -/
def pushHistory (l : List ℚ) (v : ℚ) : List ℚ :=
  let l2 := l ++ [v]
  if l2.length > MAX_HISTORY then l2.drop (l2.length - MAX_HISTORY) else l2

/-- The mutable state of a `MonitoringSystem` object (`monitoring.py`):
the `monitoring_active` flag and the three per-metric history lists. -/
structure MonitoringSystem where
  monitoring_active : Bool
  cpu_usage : List ℚ
  memory_usage : List ℚ
  disk_usage : List ℚ
  deriving DecidableEq

/-- `MonitoringSystem.start_monitoring`: sets `monitoring_active = True`
(logging is an external effect). -/
def start_monitoring (s : MonitoringSystem) : MonitoringSystem :=
  { s with monitoring_active := true }

/-- `MonitoringSystem.stop_monitoring` (`monitoring.py` lines 48–52):
sets `monitoring_active = False`; nothing else changes. -/
def stop_monitoring (s : MonitoringSystem) : MonitoringSystem :=
  { s with monitoring_active := false }

/-- `MonitoringSystem.get_cpu_usage`: returns `None` without sampling
when monitoring is inactive; otherwise appends the `psutil` reading
(passed here as the argument `reading`) to the history, trims, and
returns it. -/
def get_cpu_usage (s : MonitoringSystem) (reading : ℚ) :
    Option ℚ × MonitoringSystem :=
  if s.monitoring_active = false then (Option.none, s)
  else (Option.some reading,
        { s with cpu_usage := pushHistory s.cpu_usage reading })

/-- `MonitoringSystem.get_alarm_data` (`monitoring.py` lines 132–156):
returns `(None, None, None)` when monitoring is inactive; otherwise
reads the three `psutil` values inside `try`/`except` — a raised
exception (modelled by `reading = Option.none`) also yields
`(None, None, None)`.  No history list is touched. -/
def get_alarm_data (s : MonitoringSystem) (reading : Option (ℚ × ℚ × ℚ)) :
    Option ℚ × Option ℚ × Option ℚ :=
  if s.monitoring_active = false then (Option.none, Option.none, Option.none)
  else
    match reading with
    | Option.none => (Option.none, Option.none, Option.none)
    | Option.some (cpu, memory, disk) =>
        (Option.some cpu, Option.some memory, Option.some disk)

/-- `MonitoringSystem.get_live_data` (`monitoring.py` lines 158–184):
returns `(None, None, None)` and leaves the state unchanged when
monitoring is inactive or the `psutil` reads raise; otherwise appends
each of the three readings to its history list, trims each to
`MAX_HISTORY`, and returns the readings. -/
def get_live_data (s : MonitoringSystem) (reading : Option (ℚ × ℚ × ℚ)) :
    (Option ℚ × Option ℚ × Option ℚ) × MonitoringSystem :=
  if s.monitoring_active = false then
    ((Option.none, Option.none, Option.none), s)
  else
    match reading with
    | Option.none => ((Option.none, Option.none, Option.none), s)
    | Option.some (cpu, memory, disk) =>
        ((Option.some cpu, Option.some memory, Option.some disk),
         { s with
             cpu_usage := pushHistory s.cpu_usage cpu,
             memory_usage := pushHistory s.memory_usage memory,
             disk_usage := pushHistory s.disk_usage disk })

end Monitoring

namespace Main

/-- An `Alarm` object from `alarm.py`: `alarm_type` (`'CPU'`, `'Memory'`
or `'Disk'`) and an integer `threshold`. -/
structure Alarm where
  alarm_type : String
  threshold : Int
  deriving DecidableEq

/-- `check_alarms` from `main.py` (lines 47–63), the push-alert path:
filter the alarms to those whose `alarm_type` matches, return early if
none; otherwise sort the matching thresholds in descending order
(`thresholds.sort(reverse=True)`) and walk them, alerting (print, log,
e-mail) on the first threshold with `value >= threshold` and then
`break` — so the alert carries the highest matching threshold, or no
alert is sent.  The result models which threshold was alerted. -/
def check_alarms (alarms : List Alarm) (alarm_type : String) (value : ℚ) :
    Option Int :=
  let relevant_alarms := alarms.filter (fun a => a.alarm_type = alarm_type)
  if relevant_alarms.isEmpty then Option.none
  else
    let thresholds :=
      (relevant_alarms.map Alarm.threshold).insertionSort (fun a b => b ≤ a)
    thresholds.find? (fun t => decide ((t : ℚ) ≤ value))

/-- A snapshot of the shared state of `main.py`'s monitoring threads:
the closed-over `active_monitoring` flag, whether the `monitor_loop`
thread body is still executing, how far `stop_monitoring` has got
(`0` = not called, `1` = flag cleared / waiting in `join()`,
`2` = returned), and a counter of completed sampling iterations. -/
structure LoopState where
  active : Bool
  loopRunning : Bool
  stopPhase : Nat
  samples : Nat
  deriving DecidableEq

/-- The interleaved small steps of `main.py`'s `monitor_loop` /
`stop_monitoring` pair:

* `loopIter` — one iteration of `while active_monitoring:` with the flag
  still set: sample all three metrics and check alarms;
* `loopExit` — the `while` condition reads the cleared flag and the
  thread body finishes;
* `stopSignal` — `stop_monitoring` runs `active_monitoring = False` and
  reaches `monitoring_thread.join()`;
* `stopJoin` — `join()` returns, which requires the loop thread to have
  terminated, and `stop_monitoring` returns. -/
inductive LoopStep : LoopState → LoopState → Prop where
  | loopIter (s : LoopState) (hrun : s.loopRunning = true)
      (hact : s.active = true) :
      LoopStep s { s with samples := s.samples + 1 }
  | loopExit (s : LoopState) (hrun : s.loopRunning = true)
      (hact : s.active = false) :
      LoopStep s { s with loopRunning := false }
  | stopSignal (s : LoopState) (hph : s.stopPhase = 0) :
      LoopStep s { s with active := false, stopPhase := 1 }
  | stopJoin (s : LoopState) (hph : s.stopPhase = 1)
      (hrun : s.loopRunning = false) :
      LoopStep s { s with stopPhase := 2 }

/-- Zero or more interleaved steps. -/
def LoopReach : LoopState → LoopState → Prop :=
  Relation.ReflTransGen LoopStep

/-- The state right after `start_monitoring()` completes: the flag is
set, the loop thread is running, `stop_monitoring` has not been called,
and no sampling iteration has completed yet. -/
def startedState : LoopState :=
  { active := true, loopRunning := true, stopPhase := 0, samples := 0 }

end Main

namespace GUI

/-- The warning text formatted in `GUI.show_monitoring_interface`
(`gui.py` line 315):
`f"{timestamp} ***WARNING! {alarm['type']} USAGE EXCEEDS {alarm['threshold']}%***"`. -/
def warning_message (timestamp : String) (alarm : Alarm) : String :=
  timestamp ++ " ***WARNING! " ++ alarm.type ++ " USAGE EXCEEDS " ++
    toString alarm.threshold ++ "%***"

/-- The warning-window update of one evaluation cycle in
`GUI.show_monitoring_interface` (`gui.py` lines 312–319): if any alarm
triggered, each triggered alarm's message is inserted at the front
unless the exact same string is already present, and the window is then
truncated to its 8 most recent entries; with no triggered alarm the
window is left alone. -/
def update_warning_history (warning_history : List String)
    (timestamp : String) (triggered_alarms : List Alarm) : List String :=
  if triggered_alarms.isEmpty then warning_history
  else
    (triggered_alarms.foldl
      (fun h alarm =>
        let warning := warning_message timestamp alarm
        if warning ∈ h then h else warning :: h)
      warning_history).take 8

end GUI

/-- The ordering the specification claims for the listed alarms: by
resource type first and, within the same resource type, by ascending
threshold.  Stated from the spec's words (`list() -> ordered sequence of
Alarm sorted by (resource_type, threshold)`), for comparison with the
source's `get_alarms`. -/
def specTypeThresholdOrder (a b : Alarm) : Prop :=
  strLtb a.type.data b.type.data = true ∨
    (a.type = b.type ∧ a.threshold ≤ b.threshold)

instance (a b : Alarm) : Decidable (specTypeThresholdOrder a b) := by
  unfold specTypeThresholdOrder
  infer_instance

/-- The safety invariant of the `main.py` shutdown protocol: once
`stop_monitoring` has cleared the flag (phase 1 or 2) the flag stays
cleared, and once `join()` has returned (phase 2) the loop thread has
terminated. -/
def StopInv (s : Main.LoopState) : Prop :=
  (s.stopPhase = 1 ∨ s.stopPhase = 2 → s.active = false) ∧
  (s.stopPhase = 2 → s.loopRunning = false)

/-! ## Helper lemmas about the embedded string order -/

theorem strLtb_asymm :
    ∀ a b : List Char, strLtb a b = true → strLtb b a = false
  | [], [] => by simp [strLtb]
  | [], _ :: _ => fun _ => rfl
  | _ :: _, [] => by simp [strLtb]
  | c :: cs, d :: ds => by
    intro h
    simp only [strLtb] at h ⊢
    rcases lt_trichotomy c d with hcd | hcd | hcd
    · rw [if_neg (asymm hcd), if_pos hcd]
    · subst hcd
      rw [if_neg (lt_irrefl c), if_neg (lt_irrefl c)] at h ⊢
      exact strLtb_asymm cs ds h
    · rw [if_neg (asymm hcd), if_pos hcd] at h
      exact absurd h (by simp)

theorem strLtb_false_trans :
    ∀ a b c : List Char, strLtb b a = false → strLtb c b = false →
      strLtb c a = false
  | [], b, c => by
    intro h1 h2
    cases c <;> cases b <;> simp_all [strLtb]
  | _ :: _, [], _ => by simp [strLtb]
  | x :: xs, y :: ys, c => by
    intro h1 h2
    cases c with
    | nil => simp [strLtb] at h2
    | cons z zs =>
      simp only [strLtb] at h1 h2 ⊢
      rcases lt_trichotomy y x with hyx | hyx | hyx
      · rw [if_pos hyx] at h1
        exact absurd h1 (by simp)
      · subst hyx
        rw [if_neg (lt_irrefl y), if_neg (lt_irrefl y)] at h1
        rcases lt_trichotomy z y with hzy | hzy | hzy
        · rw [if_pos hzy] at h2
          exact absurd h2 (by simp)
        · subst hzy
          rw [if_neg (lt_irrefl z), if_neg (lt_irrefl z)] at h2 ⊢
          exact strLtb_false_trans xs ys zs h1 h2
        · rw [if_neg (asymm hzy)] at h2 ⊢
          rw [if_pos hzy] at h2
          rw [if_pos hzy]
      · rcases lt_trichotomy z y with hzy | hzy | hzy
        · rw [if_pos hzy] at h2
          exact absurd h2 (by simp)
        · subst hzy
          rw [if_neg (asymm hyx), if_pos hyx]
        · have hzx : x < z := lt_trans hyx hzy
          rw [if_neg (asymm hzx), if_pos hzx]

theorem strLe_total (a b : String) : strLe a b = true ∨ strLe b a = true := by
  unfold strLe
  rcases h : strLtb b.data a.data with _ | _
  · left; rfl
  · right
    rw [strLtb_asymm b.data a.data h]
    rfl

theorem strLe_trans {a b c : String} (h1 : strLe a b = true)
    (h2 : strLe b c = true) : strLe a c = true := by
  unfold strLe at h1 h2 ⊢
  simp only [Bool.not_eq_true'] at h1 h2 ⊢
  exact strLtb_false_trans a.data b.data c.data h1 h2

/-! ## C1: threshold validation on alarm creation -/

/-- C1 counterexample: calling the alarm store's `add_alarm` with an
out-of-range threshold does not fail — on an empty store,
`add_alarm("cpu", 0)` stores the record `{"type": "cpu", "threshold": 0,
"active": True}` and the collection changes (likewise for 101). -/
theorem add_alarm_stores_out_of_range_threshold :
    AlarmManager.add_alarm [] "cpu" 0 = [⟨"cpu", 0, true⟩] ∧
    AlarmManager.add_alarm [] "cpu" 0 ≠ [] ∧
    AlarmManager.add_alarm [] "cpu" 101 = [⟨"cpu", 101, true⟩] := by
  decide

/-- C1 (amended): the range check lives in the caller:
`GUI.create_alarm` rejects any threshold outside `[1, 100]` (and any
unparsable input) and leaves the alarm collection unchanged, so no
out-of-range alarm is ever stored through the create-alarm flow;
`AlarmManager.add_alarm` itself appends unconditionally. -/
theorem create_alarm_validates_threshold (alarms : List Alarm)
    (alarm_type : String) (t : Int) (h : t < 1 ∨ 100 < t) :
    GUI.create_alarm alarms alarm_type (Option.some t) = alarms ∧
    GUI.create_alarm alarms alarm_type Option.none = alarms ∧
    ∀ t' : Int, AlarmManager.add_alarm alarms alarm_type t' =
      alarms ++ [⟨alarm_type, t', true⟩] := by
  refine ⟨?_, rfl, fun t' => rfl⟩
  have hrange : ¬ (1 ≤ t ∧ t ≤ 100) := by
    rcases h with h | h
    · exact fun hc => absurd hc.1 (by omega)
    · exact fun hc => absurd hc.2 (by omega)
  simp [GUI.create_alarm, hrange]

theorem create_alarm_validates_threshold_witness :
    GUI.create_alarm [] "cpu" (Option.some 0) = ([] : List Alarm) ∧
    GUI.create_alarm [] "cpu" (Option.some 101) = ([] : List Alarm) :=
  ⟨(create_alarm_validates_threshold [] "cpu" 0 (Or.inl (by decide))).1,
   (create_alarm_validates_threshold [] "cpu" 101 (Or.inr (by decide))).1⟩

/-! ## C5: removal at an out-of-range index -/

/-- C5 counterexample: `remove_alarm` on the empty store at index 5
does leave the store unchanged and raises nothing, but its return value
is Python `None` (the method has no `return` statement), not the boolean
`False` the claim requires callers to check. -/
theorem remove_alarm_returns_none_not_false :
    AlarmManager.remove_alarm [] 5 = ([], PyRet.none) ∧
    (AlarmManager.remove_alarm [] 5).2 ≠ PyRet.bool false := by
  decide

/-- C5 (amended): for every out-of-range index, `remove_alarm` is a
no-op — the alarm collection is unchanged and no error is raised — but
it returns Python `None` rather than `False`; indeed it returns `None`
on every input, so there is no boolean for callers to check. -/
theorem remove_alarm_out_of_range_noop (alarms : List Alarm) (index : Int)
    (h : ¬ (0 ≤ index ∧ index < alarms.length)) :
    AlarmManager.remove_alarm alarms index = (alarms, PyRet.none) ∧
    ∀ (alarms' : List Alarm) (index' : Int),
      (AlarmManager.remove_alarm alarms' index').2 = PyRet.none := by
  constructor
  · simp [AlarmManager.remove_alarm, h]
  · intro alarms' index'
    unfold AlarmManager.remove_alarm
    split <;> rfl

theorem remove_alarm_out_of_range_noop_witness :
    AlarmManager.remove_alarm [⟨"cpu", 50, true⟩] 3 =
      ([⟨"cpu", 50, true⟩], PyRet.none) :=
  (remove_alarm_out_of_range_noop [⟨"cpu", 50, true⟩] 3 (by decide)).1

/-! ## C6: reads while monitoring is stopped -/

/-- C6: when `monitoring_active` is false, `get_live_data` returns
`(None, None, None)` leaving the histories untouched, and
`get_alarm_data` returns `(None, None, None)` — whatever the `psutil`
readings would have been. -/
theorem inactive_reads_return_absent (s : Monitoring.MonitoringSystem)
    (reading : Option (ℚ × ℚ × ℚ)) (h : s.monitoring_active = false) :
    Monitoring.get_live_data s reading =
      ((Option.none, Option.none, Option.none), s) ∧
    Monitoring.get_alarm_data s reading =
      (Option.none, Option.none, Option.none) := by
  constructor
  · simp [Monitoring.get_live_data, h]
  · simp [Monitoring.get_alarm_data, h]

theorem inactive_reads_return_absent_witness :
    Monitoring.get_live_data ⟨false, [], [], []⟩ (Option.some (50, 60, 70)) =
      ((Option.none, Option.none, Option.none), ⟨false, [], [], []⟩) ∧
    Monitoring.get_alarm_data ⟨false, [], [], []⟩ (Option.some (50, 60, 70)) =
      (Option.none, Option.none, Option.none) :=
  inactive_reads_return_absent ⟨false, [], [], []⟩ (Option.some (50, 60, 70))
    rfl

/-! ## C7: ordering of the alarm list -/

/-- C7 counterexample: on the store `[cpu:90, cpu:70]`, `get_alarms`
returns `[cpu:90, cpu:70]` unchanged — the two alarms share a resource
type but the thresholds are not in ascending order, so the output is not
sorted by `(resource_type, threshold)`. -/
theorem get_alarms_not_sorted_by_threshold :
    AlarmManager.get_alarms [⟨"cpu", 90, true⟩, ⟨"cpu", 70, true⟩] =
      [⟨"cpu", 90, true⟩, ⟨"cpu", 70, true⟩] ∧
    ¬ List.Pairwise specTypeThresholdOrder
      (AlarmManager.get_alarms [⟨"cpu", 90, true⟩, ⟨"cpu", 70, true⟩]) := by
  decide

/-- C7 (amended): `get_alarms` returns a permutation of the stored
alarms that is sorted by the uppercased resource type only — the sort
key is `x['type'].upper()` alone, so thresholds play no part in the
order. -/
theorem get_alarms_sorted_by_type_only (alarms : List Alarm) :
    (AlarmManager.get_alarms alarms).Perm alarms ∧
    List.Sorted (fun a b : Alarm =>
        strLe (strUpper a.type) (strUpper b.type) = true)
      (AlarmManager.get_alarms alarms) := by
  constructor
  · exact List.perm_insertionSort _ alarms
  · haveI : IsTotal Alarm (fun a b : Alarm =>
        strLe (strUpper a.type) (strUpper b.type) = true) :=
      ⟨fun a b => strLe_total _ _⟩
    haveI : IsTrans Alarm (fun a b : Alarm =>
        strLe (strUpper a.type) (strUpper b.type) = true) :=
      ⟨fun _ _ _ => strLe_trans⟩
    exact List.sorted_insertionSort _ alarms

/-! ## C9: de-duplication in the rolling warning window -/

/-- C9 counterexample: with the `cpu:90` warning from cycle
`[10:00:00]` still in the window, the same `(cpu, 90)` alarm firing
again at `[10:00:05]` is re-inserted — the formatted message embeds the
timestamp, so the exact-text comparison does not recognise the pair as
already present, and the window gains a new entry. -/
theorem warning_reinserted_at_new_timestamp :
    GUI.update_warning_history
        [GUI.warning_message "[10:00:00]" ⟨"cpu", 90, true⟩] "[10:00:05]"
        [⟨"cpu", 90, true⟩] =
      [GUI.warning_message "[10:00:05]" ⟨"cpu", 90, true⟩,
       GUI.warning_message "[10:00:00]" ⟨"cpu", 90, true⟩] ∧
    GUI.update_warning_history
        [GUI.warning_message "[10:00:00]" ⟨"cpu", 90, true⟩] "[10:00:05]"
        [⟨"cpu", 90, true⟩] ≠
      [GUI.warning_message "[10:00:00]" ⟨"cpu", 90, true⟩] := by
  decide

/-- C9 (amended): de-duplication is by the exact message text, which
includes the evaluation cycle's timestamp: a `(type, threshold)` pair
firing again is suppressed only when its full formatted message —
timestamp included — is already in the window; a message not yet present
(in particular, the same pair under a fresh timestamp) is inserted at
the front, after which the window is truncated to 8 entries. -/
theorem warning_dedup_by_exact_text (h : List String) (ts : String)
    (a : Alarm) :
    (h.length ≤ 8 → GUI.warning_message ts a ∈ h →
      GUI.update_warning_history h ts [a] = h) ∧
    (GUI.warning_message ts a ∉ h →
      GUI.update_warning_history h ts [a] =
        (GUI.warning_message ts a :: h).take 8) := by
  constructor
  · intro hlen hmem
    simp only [GUI.update_warning_history, List.isEmpty_cons, List.foldl,
      if_neg (by simp : ¬ (false = true)), if_pos hmem]
    exact List.take_of_length_le hlen
  · intro hmem
    simp only [GUI.update_warning_history, List.isEmpty_cons, List.foldl,
      if_neg (by simp : ¬ (false = true)), if_neg hmem]

theorem warning_dedup_by_exact_text_witness :
    GUI.update_warning_history
        [GUI.warning_message "[10:00:00]" ⟨"cpu", 90, true⟩] "[10:00:00]"
        [⟨"cpu", 90, true⟩] =
      [GUI.warning_message "[10:00:00]" ⟨"cpu", 90, true⟩] :=
  (warning_dedup_by_exact_text
      [GUI.warning_message "[10:00:00]" ⟨"cpu", 90, true⟩] "[10:00:00]"
      ⟨"cpu", 90, true⟩).1 (by decide) (by decide)

/-! ## C10: the `active` field in alarm evaluation -/

/-- C10 counterexample: the stored alarm `{'type': 'cpu', 'threshold':
0, 'active': False}` with a CPU sample of `0` — a value at (hence at or
above) its threshold — is not in the triggered list: the Python
condition `cpu and cpu >= threshold` short-circuits on the falsy sample
`0.0`. -/
theorem inactive_zero_sample_alarm_not_triggered :
    AlarmManager.check_alarms [⟨"cpu", 0, false⟩] (Option.some 0)
        Option.none Option.none = [] ∧
    (((⟨"cpu", 0, false⟩ : Alarm).threshold : ℚ) ≤ 0) ∧
    (⟨"cpu", 0, false⟩ : Alarm) ∉
      AlarmManager.check_alarms [⟨"cpu", 0, false⟩] (Option.some 0)
        Option.none Option.none := by
  decide

/-- C10 (amended): `check_alarms` never reads the `active` field — an
alarm evaluates identically whatever its `active` value — and any listed
alarm whose branch condition holds (for a CPU alarm: the sample present,
nonzero, and at or above the threshold) is included in the triggered
list even when `active` is false. -/
theorem check_alarms_ignores_active (alarms : List Alarm)
    (cpu memory disk : Option ℚ) :
    (∀ (a : Alarm) (act : Bool),
        AlarmManager.alarmTriggers cpu memory disk { a with active := act } =
          AlarmManager.alarmTriggers cpu memory disk a) ∧
    (∀ a ∈ alarms, AlarmManager.alarmTriggers cpu memory disk a = true →
        a ∈ AlarmManager.check_alarms alarms cpu memory disk) ∧
    (∀ (ty : String) (t : Int) (v : ℚ), strUpper ty = "CPU" →
        cpu = Option.some v → v ≠ 0 → (t : ℚ) ≤ v →
        AlarmManager.alarmTriggers cpu memory disk ⟨ty, t, false⟩ = true) := by
  refine ⟨fun a act => rfl, ?_, ?_⟩
  · intro a ha htrig
    exact List.mem_filter.mpr ⟨ha, htrig⟩
  · intro ty t v hty hcpu hv hle
    subst hcpu
    simp [AlarmManager.alarmTriggers, hty, AlarmManager.truthyAndGe, hv, hle]

theorem check_alarms_ignores_active_witness :
    (⟨"cpu", 70, false⟩ : Alarm) ∈
      AlarmManager.check_alarms [⟨"cpu", 70, false⟩] (Option.some 95)
        Option.none Option.none :=
  (check_alarms_ignores_active [⟨"cpu", 70, false⟩] (Option.some 95)
      Option.none Option.none).2.1 ⟨"cpu", 70, false⟩ (by decide) (by decide)

/-! ## C2: absent sample values never trigger -/

/-- C2: a metric whose sample is absent (`None`) triggers no alarm of
that metric's type, whatever the thresholds: the Python condition
`value and value >= threshold` short-circuits to falsy on `None`, and
the absent value is never coerced to `0`. -/
theorem absent_sample_never_triggers (alarms : List Alarm)
    (cpu memory disk : Option ℚ) :
    (∀ a ∈ AlarmManager.check_alarms alarms Option.none memory disk,
        strUpper a.type ≠ "CPU") ∧
    (∀ a ∈ AlarmManager.check_alarms alarms cpu Option.none disk,
        strUpper a.type ≠ "MEMORY") ∧
    (∀ a ∈ AlarmManager.check_alarms alarms cpu memory Option.none,
        strUpper a.type ≠ "DISK") := by
  refine ⟨?_, ?_, ?_⟩ <;> intro a ha hty <;>
  · have htrig := (List.mem_filter.mp ha).2
    simp only [AlarmManager.alarmTriggers, hty] at htrig
    simp [AlarmManager.truthyAndGe] at htrig

theorem absent_sample_never_triggers_witness :
    strUpper (Alarm.mk "memory" 50 true).type ≠ "CPU" :=
  (absent_sample_never_triggers [⟨"memory", 50, true⟩] Option.none
      (Option.some 80) Option.none).1 ⟨"memory", 50, true⟩ (by decide)

/-! ## C4: history buffer capacity and FIFO eviction -/

theorem pushHistory_length_le (l : List ℚ) (v : ℚ)
    (h : l.length ≤ Monitoring.MAX_HISTORY) :
    (Monitoring.pushHistory l v).length ≤ Monitoring.MAX_HISTORY := by
  simp only [Monitoring.pushHistory]
  split_ifs with h2
  · simp only [List.length_drop]
    omega
  · simp only [gt_iff_lt, not_lt] at h2
    exact h2

theorem pushHistory_eq_drop (l : List ℚ) (v : ℚ) :
    Monitoring.pushHistory l v =
      (l ++ [v]).drop ((l ++ [v]).length - Monitoring.MAX_HISTORY) := by
  simp only [Monitoring.pushHistory]
  split_ifs with h2
  · rfl
  · have h0 : (l ++ [v]).length - Monitoring.MAX_HISTORY = 0 := by omega
    rw [h0, List.drop_zero]

theorem foldl_pushHistory :
    ∀ (vs l : List ℚ), l.length ≤ Monitoring.MAX_HISTORY →
      vs.foldl Monitoring.pushHistory l =
        (l ++ vs).drop ((l ++ vs).length - Monitoring.MAX_HISTORY)
  | [], l, h => by
    have h0 : (l ++ ([] : List ℚ)).length - Monitoring.MAX_HISTORY = 0 := by
      rw [List.append_nil]
      omega
    rw [List.foldl_nil, h0, List.drop_zero, List.append_nil]
  | v :: vs, l, h => by
    rw [List.foldl_cons]
    by_cases hlen : l.length + 1 ≤ Monitoring.MAX_HISTORY
    · have hpush : Monitoring.pushHistory l v = l ++ [v] := by
        rw [pushHistory_eq_drop l v]
        have h0 : (l ++ [v]).length - Monitoring.MAX_HISTORY = 0 := by
          rw [List.length_append, List.length_cons, List.length_nil]
          omega
        rw [h0, List.drop_zero]
      have hlen' : (l ++ [v]).length ≤ Monitoring.MAX_HISTORY := by
        rw [List.length_append, List.length_cons, List.length_nil]
        omega
      rw [hpush, foldl_pushHistory vs (l ++ [v]) hlen', List.append_assoc,
        List.singleton_append]
    · have hpush : Monitoring.pushHistory l v = (l ++ [v]).drop 1 := by
        rw [pushHistory_eq_drop l v]
        have h1 : (l ++ [v]).length - Monitoring.MAX_HISTORY = 1 := by
          rw [List.length_append, List.length_cons, List.length_nil]
          omega
        rw [h1]
      have hdroplen : ((l ++ [v]).drop 1).length ≤ Monitoring.MAX_HISTORY := by
        rw [List.length_drop, List.length_append, List.length_cons,
          List.length_nil]
        omega
      have hone : 1 ≤ (l ++ [v]).length := by
        rw [List.length_append, List.length_cons, List.length_nil]
        omega
      rw [hpush, foldl_pushHistory vs _ hdroplen,
        ← List.drop_append_of_le_length hone, List.drop_drop,
        List.append_assoc, List.singleton_append]
      exact congrArg (fun k => List.drop k (l ++ v :: vs))
        (by rw [List.length_drop, List.length_append, List.length_cons]; omega)

/-- C4: the history trim keeps every per-metric list at or below
`MAX_HISTORY = 1000` entries after any number of pushes (in particular
across `get_live_data`, which pushes all three metrics), and eviction is
strict FIFO: starting from empty, a sequence of pushes leaves exactly
the most recent 1000 values in push order — pushing 1005 values leaves
the last 1000. -/
theorem history_capacity_and_fifo :
    (∀ (l : List ℚ) (v : ℚ), l.length ≤ Monitoring.MAX_HISTORY →
        (Monitoring.pushHistory l v).length ≤ Monitoring.MAX_HISTORY) ∧
    (∀ vs : List ℚ,
        vs.foldl Monitoring.pushHistory [] =
          vs.drop (vs.length - Monitoring.MAX_HISTORY)) ∧
    (∀ vs : List ℚ, vs.length = 1005 →
        vs.foldl Monitoring.pushHistory [] = vs.drop 5) ∧
    (∀ (s : Monitoring.MonitoringSystem) (r : Option (ℚ × ℚ × ℚ)),
        s.cpu_usage.length ≤ Monitoring.MAX_HISTORY →
        s.memory_usage.length ≤ Monitoring.MAX_HISTORY →
        s.disk_usage.length ≤ Monitoring.MAX_HISTORY →
        (Monitoring.get_live_data s r).2.cpu_usage.length ≤
            Monitoring.MAX_HISTORY ∧
          (Monitoring.get_live_data s r).2.memory_usage.length ≤
            Monitoring.MAX_HISTORY ∧
          (Monitoring.get_live_data s r).2.disk_usage.length ≤
            Monitoring.MAX_HISTORY) := by
  have hfold : ∀ vs : List ℚ,
      vs.foldl Monitoring.pushHistory [] =
        vs.drop (vs.length - Monitoring.MAX_HISTORY) := by
    intro vs
    have := foldl_pushHistory vs [] (by simp)
    simpa using this
  refine ⟨pushHistory_length_le, hfold, ?_, ?_⟩
  · intro vs hlen
    rw [hfold vs, hlen]
    norm_num [Monitoring.MAX_HISTORY]
  · intro s r h1 h2 h3
    unfold Monitoring.get_live_data
    split_ifs with hact
    · exact ⟨h1, h2, h3⟩
    · cases r with
      | none => exact ⟨h1, h2, h3⟩
      | some t =>
        obtain ⟨cpu, memory, disk⟩ := t
        exact ⟨pushHistory_length_le _ _ h1, pushHistory_length_le _ _ h2,
          pushHistory_length_le _ _ h3⟩

theorem history_capacity_and_fifo_witness :
    (List.map (fun (n : ℕ) => (n : ℚ)) (List.range 1005)).foldl
        Monitoring.pushHistory []
      = (List.map (fun (n : ℕ) => (n : ℚ)) (List.range 1005)).drop 5 :=
  history_capacity_and_fifo.2.2.1 _
    (by rw [List.length_map, List.length_range])

/-! ## C3: push-alert path vs bulk-query path -/

theorem find?_desc_ge {v : ℚ} :
    ∀ l : List Int, List.Pairwise (fun a b : Int => b ≤ a) l →
      ∀ t : Int,
        l.find? (fun u : Int => decide ((u : ℚ) ≤ v)) = Option.some t →
        t ∈ l ∧ (t : ℚ) ≤ v ∧ ∀ u ∈ l, (u : ℚ) ≤ v → u ≤ t := by
  intro l
  induction l with
  | nil =>
    intro _ t ht
    simp at ht
  | cons x xs ih =>
    intro hpw t ht
    obtain ⟨hxall, hpw'⟩ := List.pairwise_cons.mp hpw
    by_cases hx : (x : ℚ) ≤ v
    · rw [List.find?_cons_of_pos _ (by simpa using hx)] at ht
      obtain rfl : x = t := by simpa using ht
      refine ⟨List.mem_cons_self _ _, hx, ?_⟩
      intro u hu _
      rcases List.mem_cons.mp hu with rfl | hu'
      · exact le_refl u
      · exact hxall u hu'
    · rw [List.find?_cons_of_neg _ (by simpa using hx)] at ht
      obtain ⟨htmem, htle, htmax⟩ := ih hpw' t ht
      refine ⟨List.mem_cons_of_mem _ htmem, htle, ?_⟩
      intro u hu hule
      rcases List.mem_cons.mp hu with rfl | hu'
      · exact absurd hule hx
      · exact htmax u hu' hule

/-- C3: on the push-alert path (`main.py` `check_alarms`) at most one
alert is surfaced per resource type per evaluation — the returned
threshold is a matching alarm's, is crossed by the sample, and is the
highest crossed threshold among the matching alarms, and an alert is
guaranteed whenever some matching alarm's threshold is crossed — while
the bulk-query path (`AlarmManager.check_alarms`) returns every alarm
whose branch condition holds. -/
theorem push_alert_highest_wins (alarms : List Main.Alarm) (ty : String)
    (v : ℚ) :
    (∀ t : Int, Main.check_alarms alarms ty v = Option.some t →
        (∃ a, a ∈ alarms ∧ a.alarm_type = ty ∧ a.threshold = t) ∧
        (t : ℚ) ≤ v ∧
        ∀ a, a ∈ alarms → a.alarm_type = ty → (a.threshold : ℚ) ≤ v →
          a.threshold ≤ t) ∧
    ((∃ a, a ∈ alarms ∧ a.alarm_type = ty ∧ (a.threshold : ℚ) ≤ v) →
        ∃ t : Int, Main.check_alarms alarms ty v = Option.some t) ∧
    (∀ (ds : List Alarm) (cpu memory disk : Option ℚ) (b : Alarm),
        b ∈ AlarmManager.check_alarms ds cpu memory disk ↔
          b ∈ ds ∧ AlarmManager.alarmTriggers cpu memory disk b = true) := by
  have hsorted : List.Pairwise (fun a b : Int => b ≤ a)
      (((alarms.filter (fun a => a.alarm_type = ty)).map
        Main.Alarm.threshold).insertionSort (fun a b : Int => b ≤ a)) := by
    haveI : IsTotal Int (fun a b : Int => b ≤ a) := ⟨fun a b => le_total b a⟩
    haveI : IsTrans Int (fun a b : Int => b ≤ a) :=
      ⟨fun _ _ _ h1 h2 => le_trans h2 h1⟩
    exact List.sorted_insertionSort _ _
  refine ⟨?_, ?_, fun ds cpu memory disk b => List.mem_filter⟩
  · intro t ht
    simp only [Main.check_alarms] at ht
    by_cases hemp : (alarms.filter (fun a => a.alarm_type = ty)).isEmpty = true
    · rw [if_pos hemp] at ht
      exact absurd ht (by simp)
    · rw [if_neg hemp] at ht
      obtain ⟨htmem, htle, htmax⟩ := find?_desc_ge _ hsorted t ht
      have htmem' := (List.mem_insertionSort _).mp htmem
      obtain ⟨a, hafil, hat⟩ := List.mem_map.mp htmem'
      obtain ⟨ha, hq⟩ := List.mem_filter.mp hafil
      refine ⟨⟨a, ha, of_decide_eq_true hq, hat⟩, htle, ?_⟩
      intro b hb hbty hble
      have hbfil : b ∈ alarms.filter (fun a => a.alarm_type = ty) :=
        List.mem_filter.mpr ⟨hb, decide_eq_true hbty⟩
      have hbmem : b.threshold ∈
          ((alarms.filter (fun a => a.alarm_type = ty)).map
            Main.Alarm.threshold).insertionSort (fun a b : Int => b ≤ a) :=
        (List.mem_insertionSort _).mpr (List.mem_map_of_mem _ hbfil)
      exact htmax _ hbmem hble
  · rintro ⟨a, ha, haty, hale⟩
    have hafil : a ∈ alarms.filter (fun a => a.alarm_type = ty) :=
      List.mem_filter.mpr ⟨ha, decide_eq_true haty⟩
    have hamem : a.threshold ∈
        ((alarms.filter (fun a => a.alarm_type = ty)).map
          Main.Alarm.threshold).insertionSort (fun a b : Int => b ≤ a) :=
      (List.mem_insertionSort _).mpr (List.mem_map_of_mem _ hafil)
    have hne : alarms.filter (fun a => a.alarm_type = ty) ≠ [] :=
      List.ne_nil_of_mem hafil
    have hsome : ((((alarms.filter (fun a => a.alarm_type = ty)).map
        Main.Alarm.threshold).insertionSort (fun a b : Int => b ≤ a)).find?
          (fun u : Int => decide ((u : ℚ) ≤ v))).isSome = true := by
      rw [List.find?_isSome]
      exact ⟨a.threshold, hamem, decide_eq_true hale⟩
    simp only [Main.check_alarms]
    rw [if_neg (by simpa using hne)]
    exact Option.isSome_iff_exists.mp hsome

theorem push_alert_highest_wins_witness :
    (∃ a, a ∈ [Main.Alarm.mk "CPU" 70, Main.Alarm.mk "CPU" 90] ∧
        a.alarm_type = "CPU" ∧ a.threshold = 90) ∧
    ((90 : Int) : ℚ) ≤ 95 ∧
    ∀ a, a ∈ [Main.Alarm.mk "CPU" 70, Main.Alarm.mk "CPU" 90] →
      a.alarm_type = "CPU" → (a.threshold : ℚ) ≤ 95 → a.threshold ≤ 90 :=
  (push_alert_highest_wins [⟨"CPU", 70⟩, ⟨"CPU", 90⟩] "CPU" 95).1 90
    (by decide)

/-! ## C8: race-free shutdown -/

theorem stopInv_init : StopInv Main.startedState :=
  ⟨fun h => by rcases h with h | h <;> simp [Main.startedState] at h,
   fun h => by simp [Main.startedState] at h⟩

theorem stopInv_step {s s' : Main.LoopState} (hinv : StopInv s)
    (hstep : Main.LoopStep s s') : StopInv s' := by
  cases hstep with
  | loopIter hrun hact => exact hinv
  | loopExit hrun hact => exact ⟨fun h => hinv.1 h, fun _ => rfl⟩
  | stopSignal hph => exact ⟨fun _ => rfl, fun h2 => by simp at h2⟩
  | stopJoin hph hrun => exact ⟨fun _ => hinv.1 (Or.inl hph), fun _ => hrun⟩

theorem stopInv_reach {s : Main.LoopState}
    (h : Main.LoopReach Main.startedState s) : StopInv s := by
  induction h with
  | refl => exact stopInv_init
  | tail _ hstep ih => exact stopInv_step ih hstep

theorem no_loopStep_after_join {s s' : Main.LoopState}
    (hph : s.stopPhase = 2) (hrun : s.loopRunning = false) :
    ¬ Main.LoopStep s s' := by
  intro hstep
  cases hstep with
  | loopIter h1 h2 => rw [hrun] at h1; exact absurd h1 (by decide)
  | loopExit h1 h2 => rw [hrun] at h1; exact absurd h1 (by decide)
  | stopSignal h1 => rw [hph] at h1; exact absurd h1 (by decide)
  | stopJoin h1 h2 => rw [hph] at h1; exact absurd h1 (by decide)

/-- C8: in any execution of `main.py`'s shutdown protocol starting right
after `start_monitoring()`, once `stop_monitoring` has returned (phase
2) the flag is cleared, the loop thread has fully terminated — `join()`
waited for it — and no further step of the system is possible, so the
sample count never changes again and no further alarm check runs.
Likewise, in the `monitoring.py` variant, a `get_live_data` call after
`stop_monitoring` takes no sample and leaves the state untouched. -/
theorem stop_is_race_free (s : Main.LoopState)
    (hreach : Main.LoopReach Main.startedState s) (hstop : s.stopPhase = 2) :
    s.active = false ∧ s.loopRunning = false ∧
    (∀ s', Main.LoopReach s s' → s' = s) ∧
    (∀ (ms : Monitoring.MonitoringSystem) (r : Option (ℚ × ℚ × ℚ)),
        Monitoring.get_live_data (Monitoring.stop_monitoring ms) r =
          ((Option.none, Option.none, Option.none),
            Monitoring.stop_monitoring ms)) := by
  have hinv := stopInv_reach hreach
  have hrun := hinv.2 hstop
  refine ⟨hinv.1 (Or.inr hstop), hrun, ?_, ?_⟩
  · intro s' hs'
    rcases Relation.ReflTransGen.cases_head hs' with heq | ⟨c, hstep, _⟩
    · exact heq.symm
    · exact absurd hstep (no_loopStep_after_join hstop hrun)
  · intro ms r
    simp [Monitoring.get_live_data, Monitoring.stop_monitoring]

theorem stop_is_race_free_witness :
    (Main.LoopState.mk false false 2 0).active = false ∧
    (Main.LoopState.mk false false 2 0).loopRunning = false := by
  have hreach : Main.LoopReach Main.startedState ⟨false, false, 2, 0⟩ :=
    Relation.ReflTransGen.head
      (Main.LoopStep.stopSignal Main.startedState rfl)
      (Relation.ReflTransGen.head
        (Main.LoopStep.loopExit ⟨false, true, 1, 0⟩ rfl rfl)
        (Relation.ReflTransGen.head
          (Main.LoopStep.stopJoin ⟨false, false, 1, 0⟩ rfl rfl)
          Relation.ReflTransGen.refl))
  exact ⟨(stop_is_race_free ⟨false, false, 2, 0⟩ hreach rfl).1,
    (stop_is_race_free ⟨false, false, 2, 0⟩ hreach rfl).2.1⟩
